import Mathlib

/-
Verification of the parcel-store persistence layer (`parcel.go`) against its
specification.  The single `parcel` table is embedded as a list of rows plus
the sqlite autoincrement counter; each store operation is embedded as a pure
function of that state.  Failures of the underlying database driver are
embedded as explicit fault parameters: a `none` fault is a run in which the
corresponding driver call succeeds, a `some e` fault is a run in which it
fails with error `e`.
-/

namespace ParcelTracker

/-- A parcel record, mirroring the Go `Parcel` struct whose five fields are
scanned from the columns `number, client, status, address, created_at`. -/
structure Parcel where
  Number : Int
  Client : Int
  Status : String
  Address : String
  CreatedAt : String
deriving DecidableEq, Repr

/-- Modelled from the spec: the status constants are declared in a repository
file that is not present under `src/`; §3 of the spec fixes the member
`registered`, and the SQL of `Delete` uses the same literal `'registered'`. -/
def ParcelStatusRegistered : String := "registered"

/-- State of the single `parcel` table: the stored rows together with the
sqlite autoincrement counter that assigns the next primary key. -/
structure ParcelDB where
  rows : List Parcel
  nextNumber : Int
deriving DecidableEq, Repr

/-- A freshly created table (sqlite hands out 1 as the first rowid). -/
def emptyDB : ParcelDB := ⟨[], 1⟩

/-- Well-formedness of the autoincrement counter: every stored primary key is
strictly below the next key to be handed out (sqlite never reuses one). -/
def dbInv (db : ParcelDB) : Prop :=
  ∀ r ∈ db.rows, r.Number < db.nextNumber

/-- Semantics of `INSERT INTO parcel (client, status, address, created_at)
VALUES (?, ?, ?, ?)` together with `LastInsertId`: append a row keyed by the
autoincrement counter and report that key. -/
def insertParcel (db : ParcelDB) (client : Int) (status address createdAt : String) :
    ParcelDB × Int :=
  (⟨db.rows ++ [⟨db.nextNumber, client, status, address, createdAt⟩], db.nextNumber + 1⟩,
   db.nextNumber)

/-- Semantics of `SELECT ... FROM parcel WHERE number = ?` under `QueryRow`:
the first matching row, if any. -/
def selectByNumber (db : ParcelDB) (number : Int) : Option Parcel :=
  db.rows.find? (fun r => r.Number == number)

/-- Semantics of `SELECT ... FROM parcel WHERE client = ?`: all matching rows
in table order. -/
def selectByClient (db : ParcelDB) (client : Int) : List Parcel :=
  db.rows.filter (fun r => r.Client == client)

/-- Semantics of `UPDATE parcel SET status = ? WHERE number = ?`. -/
def updateStatusRows (rows : List Parcel) (number : Int) (status : String) :
    List Parcel :=
  rows.map (fun r => if r.Number == number then { r with Status := status } else r)

/-- Semantics of `UPDATE parcel SET address = ? WHERE number = ? AND
status = ?` with `ParcelStatusRegistered` bound to the status parameter. -/
def updateAddressRows (rows : List Parcel) (number : Int) (address : String) :
    List Parcel :=
  rows.map (fun r =>
    if r.Number == number && r.Status == ParcelStatusRegistered
    then { r with Address := address } else r)

/-- Semantics of `DELETE FROM parcel WHERE number = ? AND
status = 'registered'`. -/
def deleteRows (rows : List Parcel) (number : Int) : List Parcel :=
  rows.filter (fun r => !(r.Number == number && r.Status == "registered"))

/-- Errors of the underlying `database/sql` driver, kept abstract as strings. -/
abbrev Err := String

/-- The sentinel error `sql.ErrNoRows` that `Row.Scan` returns when the
query matched no row. -/
def errNoRows : Err := "sql: no rows in result set"

/-- Go zero value of `Parcel`, the record `Get` returns alongside an error. -/
def zeroParcel : Parcel := ⟨0, 0, "", "", ""⟩

/-- Faults that can hit the two driver calls made by `Add`. -/
structure AddFaults where
  exec : Option Err
  lastInsertId : Option Err

/-- A run of `Add` in which both driver calls succeed. -/
def noAddFaults : AddFaults := ⟨none, none⟩

/-- Faults that can hit the driver calls made by `GetByClient`: the initial
`Query`, the `Scan` of each row (indexed by its position in the result set),
and the final `rows.Err` check. -/
structure QueryFaults where
  query : Option Err
  scan : Nat → Option Err
  rowsErr : Option Err

/-- A run of `GetByClient` in which every driver call succeeds. -/
def noQueryFaults : QueryFaults := ⟨none, fun _ => none, none⟩

namespace ParcelStore

/-- Embedding of `ParcelStore.Add`: run the INSERT (which may fail), then
`LastInsertId` (which may fail); on a failure return `0` and that error,
otherwise the freshly assigned number.  Note the INSERT never reads
`p.Number`. -/
def Add (db : ParcelDB) (p : Parcel) (f : AddFaults) : Int × Option Err × ParcelDB :=
  match f.exec with
  | some e => (0, some e, db)
  | none =>
    let ins := insertParcel db p.Client p.Status p.Address p.CreatedAt
    match f.lastInsertId with
    | some e => (0, some e, ins.1)
    | none => (ins.2, none, ins.1)

/-- Embedding of `ParcelStore.Get`: `QueryRow` followed by `Scan`.  `Scan`
yields `sql.ErrNoRows` when no row matched, may fail decoding an existing row
(fault `f`), and on any error the zero-value `Parcel` is returned. -/
def Get (db : ParcelDB) (number : Int) (f : Option Err) : Parcel × Option Err :=
  match selectByNumber db number with
  | none => (zeroParcel, some errNoRows)
  | some p =>
    match f with
    | some e => (zeroParcel, some e)
    | none => (p, none)

/-- The `rows.Next` / `rows.Scan` loop of `GetByClient`: scan the matching
rows in order into the accumulator, aborting with `nil` and the error as soon
as the scan of some row fails. -/
def scanLoop (ps : List Parcel) (scan : Nat → Option Err) (i : Nat)
    (acc : List Parcel) : List Parcel × Option Err :=
  match ps with
  | [] => (acc, none)
  | p :: rest =>
    match scan i with
    | some e => ([], some e)
    | none => scanLoop rest scan (i + 1) (acc ++ [p])

/-- Embedding of `ParcelStore.GetByClient`: `Query` (which may fail), the
scan loop, then the `rows.Err` check; every failure is returned with a `nil`
slice. -/
def GetByClient (db : ParcelDB) (client : Int) (f : QueryFaults) :
    List Parcel × Option Err :=
  match f.query with
  | some e => ([], some e)
  | none =>
    match scanLoop (selectByClient db client) f.scan 0 [] with
    | (_, some e) => ([], some e)
    | (ps, none) =>
      match f.rowsErr with
      | some e => ([], some e)
      | none => (ps, none)

/-- Embedding of `ParcelStore.SetStatus`: a single `Exec` of the
unconditional UPDATE; its error, if any, is returned as is. -/
def SetStatus (db : ParcelDB) (number : Int) (status : String) (f : Option Err) :
    Option Err × ParcelDB :=
  match f with
  | some e => (some e, db)
  | none => (none, ⟨updateStatusRows db.rows number status, db.nextNumber⟩)

/-- Embedding of `ParcelStore.SetAddress`: a single `Exec` of the UPDATE
guarded by `status = ParcelStatusRegistered`. -/
def SetAddress (db : ParcelDB) (number : Int) (address : String) (f : Option Err) :
    Option Err × ParcelDB :=
  match f with
  | some e => (some e, db)
  | none => (none, ⟨updateAddressRows db.rows number address, db.nextNumber⟩)

/-- Embedding of `ParcelStore.Delete`: a single `Exec` of the DELETE guarded
by `status = 'registered'`. -/
def Delete (db : ParcelDB) (number : Int) (f : Option Err) :
    Option Err × ParcelDB :=
  match f with
  | some e => (some e, db)
  | none => (none, ⟨deleteRows db.rows number, db.nextNumber⟩)

end ParcelStore

/-- Concrete parcel used by the witnesses (Go `Number` zero value left in
place, as `Add` ignores it). -/
def wParcel : Parcel := ⟨0, 1000, "registered", "test", "2024-01-02T03:04:05Z"⟩

/-- Concrete store state used by the witnesses: three parcels, two of them
owned by client 1000, one already `sent`. -/
def wDB : ParcelDB :=
  ⟨[⟨1, 1000, "registered", "addr1", "2024-01-01T00:00:00Z"⟩,
    ⟨2, 1000, "sent", "addr2", "2024-01-01T01:00:00Z"⟩,
    ⟨3, 7, "registered", "addr3", "2024-01-01T02:00:00Z"⟩], 4⟩

/-- A run in which the INSERT of `Add` fails. -/
def wAddFault : AddFaults := ⟨some "boom", none⟩

/-- A run in which the scan of the second result row of `GetByClient`
fails. -/
def wQueryFault : QueryFaults := ⟨none, fun i => if i == 1 then some "boom" else none, none⟩

/-- Appending to the right of a list preserves a failed lookup. -/
theorem find?_of_append {p : Parcel → Bool} {l₁ : List Parcel} (l₂ : List Parcel)
    (h : l₁.find? p = none) : (l₁ ++ l₂).find? p = l₂.find? p := by
  simp [List.find?_append, h]

/-- A scan loop in which every row decodes successfully returns the
accumulator followed by all remaining rows, and no error. -/
theorem scanLoop_ok (ps : List Parcel) (i : Nat) (acc : List Parcel) :
    ParcelStore.scanLoop ps (fun _ => none) i acc = (acc ++ ps, none) := by
  induction ps generalizing i acc with
  | nil => simp [ParcelStore.scanLoop]
  | cons p rest ih => simp [ParcelStore.scanLoop, ih]

/-- C1: for every valid parcel `p`, adding it to a well-formed store and
reading back the returned number succeeds and yields `p` with only the
`Number` field replaced by the number `Add` returned. -/
theorem add_get_roundtrip (db : ParcelDB) (p : Parcel) (hinv : dbInv db) :
    (ParcelStore.Add db p noAddFaults).2.1 = none ∧
    ParcelStore.Get (ParcelStore.Add db p noAddFaults).2.2
        (ParcelStore.Add db p noAddFaults).1 none =
      ({ p with Number := (ParcelStore.Add db p noAddFaults).1 }, none) := by
  have hnone : db.rows.find? (fun r => r.Number == db.nextNumber) = none := by
    rw [List.find?_eq_none]
    intro r hr
    have := hinv r hr
    simp only [beq_iff_eq]
    omega
  refine ⟨rfl, ?_⟩
  simp [ParcelStore.Add, ParcelStore.Get, noAddFaults, insertParcel, selectByNumber,
    find?_of_append _ hnone]

/-- Witness for C1: the round trip at a concrete store state and parcel. -/
theorem add_get_roundtrip_witness :
    dbInv wDB ∧
    ((ParcelStore.Add wDB wParcel noAddFaults).2.1 = none ∧
     ParcelStore.Get (ParcelStore.Add wDB wParcel noAddFaults).2.2
         (ParcelStore.Add wDB wParcel noAddFaults).1 none =
       ({ wParcel with Number := (ParcelStore.Add wDB wParcel noAddFaults).1 }, none)) :=
  ⟨by unfold dbInv; decide, add_get_roundtrip wDB wParcel (by unfold dbInv; decide)⟩

/-- C5: when no stored parcel carries the requested number, `Get` returns
the zero-value parcel together with the no-rows error — the absence is
surfaced as a failure, never as a silent success. -/
theorem get_missing_number_errors (db : ParcelDB) (n : Int) (f : Option Err)
    (h : ∀ r ∈ db.rows, r.Number ≠ n) :
    ParcelStore.Get db n f = (zeroParcel, some errNoRows) := by
  have hsel : selectByNumber db n = none := by
    unfold selectByNumber
    rw [List.find?_eq_none]
    intro r hr
    simpa using h r hr
  simp [ParcelStore.Get, hsel]

/-- Witness for C5: number 99 is absent from the concrete store. -/
theorem get_missing_number_errors_witness :
    (∀ r ∈ wDB.rows, r.Number ≠ 99) ∧
    ParcelStore.Get wDB 99 none = (zeroParcel, some errNoRows) :=
  ⟨by decide, get_missing_number_errors wDB 99 none (by decide)⟩

/-- C6: with a healthy driver, `GetByClient` never fails and its result
holds exactly the stored parcels whose `Client` equals the requested
identifier — no extras, no omissions, the empty list (with no error) when
none match. -/
theorem getByClient_exact (db : ParcelDB) (c : Int) :
    (ParcelStore.GetByClient db c noQueryFaults).2 = none ∧
    ∀ r : Parcel, (r ∈ (ParcelStore.GetByClient db c noQueryFaults).1 ↔
      r ∈ db.rows ∧ r.Client = c) := by
  have h := scanLoop_ok (selectByClient db c) 0 []
  constructor
  · simp [ParcelStore.GetByClient, noQueryFaults, h]
  · intro r
    simp only [ParcelStore.GetByClient, noQueryFaults, h, List.nil_append]
    simp [selectByClient, List.mem_filter]

/-- C2: `SetAddress` succeeds, keeps the autoincrement counter, and rewrites
the stored rows position by position: a row's `Address` becomes the new
address exactly when its number matches and its status is `registered`;
every other row (wrong number, wrong status, or the position being absent)
is left untouched. -/
theorem setAddress_guarded (db : ParcelDB) (n : Int) (addr : String) :
    (ParcelStore.SetAddress db n addr none).1 = none ∧
    (ParcelStore.SetAddress db n addr none).2.nextNumber = db.nextNumber ∧
    ∀ i : Nat, (ParcelStore.SetAddress db n addr none).2.rows[i]? =
      (db.rows[i]?).map (fun r =>
        if r.Number = n ∧ r.Status = ParcelStatusRegistered
        then { r with Address := addr } else r) := by
  refine ⟨rfl, rfl, fun i => ?_⟩
  simp only [ParcelStore.SetAddress, updateAddressRows, List.getElem?_map]
  cases hr : db.rows[i]? with
  | none => rfl
  | some r =>
    by_cases h1 : r.Number = n <;> by_cases h2 : r.Status = ParcelStatusRegistered <;>
      simp [h1, h2]

/-- C3: `Delete` succeeds, and afterwards a row is stored exactly when it
was stored before and is not a `registered` row carrying the requested
number: registered rows with that number are removed, all other rows (other
numbers, other statuses) persist. -/
theorem delete_guarded (db : ParcelDB) (n : Int) :
    (ParcelStore.Delete db n none).1 = none ∧
    ∀ r : Parcel, (r ∈ (ParcelStore.Delete db n none).2.rows ↔
      r ∈ db.rows ∧ ¬(r.Number = n ∧ r.Status = "registered")) := by
  refine ⟨rfl, fun r => ?_⟩
  simp [ParcelStore.Delete, deleteRows, List.mem_filter, not_and]
  tauto

/-- C4: `SetStatus` succeeds even when the number is absent, keeps the
autoincrement counter, and rewrites the stored rows position by position:
the row whose number matches gets the new status regardless of its previous
status, and every other row is left untouched. -/
theorem setStatus_unconditional (db : ParcelDB) (n : Int) (s : String) :
    (ParcelStore.SetStatus db n s none).1 = none ∧
    (ParcelStore.SetStatus db n s none).2.nextNumber = db.nextNumber ∧
    ∀ i : Nat, (ParcelStore.SetStatus db n s none).2.rows[i]? =
      (db.rows[i]?).map (fun r =>
        if r.Number = n then { r with Status := s } else r) := by
  refine ⟨rfl, rfl, fun i => ?_⟩
  simp only [ParcelStore.SetStatus, updateStatusRows, List.getElem?_map]
  cases hr : db.rows[i]? with
  | none => rfl
  | some r =>
    by_cases h1 : r.Number = n <;> simp [h1]

/-- C7: on a well-formed store `Add` succeeds, its result is entirely
independent of the `Number` field of the input parcel, the number it
assigns collides with no stored row, stored numbers stay pairwise distinct,
and well-formedness of the counter is preserved (so the number is assigned
exactly once, at creation, by the storage layer). -/
theorem add_assigns_fresh_number (db : ParcelDB) (p : Parcel) (m : Int)
    (hinv : dbInv db) (hnd : (db.rows.map Parcel.Number).Nodup) :
    (ParcelStore.Add db p noAddFaults).2.1 = none ∧
    ParcelStore.Add db { p with Number := m } noAddFaults =
      ParcelStore.Add db p noAddFaults ∧
    db.rows.all (fun r => !(r.Number == (ParcelStore.Add db p noAddFaults).1)) = true ∧
    ((ParcelStore.Add db p noAddFaults).2.2.rows.map Parcel.Number).Nodup ∧
    dbInv (ParcelStore.Add db p noAddFaults).2.2 := by
  refine ⟨rfl, rfl, ?_, ?_, ?_⟩
  · simp only [ParcelStore.Add, noAddFaults, insertParcel, List.all_eq_true,
      Bool.not_eq_true', beq_eq_false_iff_ne]
    intro r hr
    have := hinv r hr
    omega
  · simp only [ParcelStore.Add, noAddFaults, insertParcel, List.map_append,
      List.map_cons, List.map_nil]
    rw [List.nodup_append]
    refine ⟨hnd, List.nodup_singleton _, ?_⟩
    intro x hx hx2
    simp only [List.mem_singleton] at hx2
    simp only [List.mem_map] at hx
    obtain ⟨r, hr, hre⟩ := hx
    have := hinv r hr
    omega
  · unfold dbInv
    intro r hr
    simp only [ParcelStore.Add, noAddFaults, insertParcel, List.mem_append,
      List.mem_singleton] at hr ⊢
    rcases hr with h | h
    · have := hinv r h
      omega
    · subst h
      show db.nextNumber < db.nextNumber + 1
      omega

/-- Witness for C7 at the concrete store, overriding `Number` with 42. -/
theorem add_assigns_fresh_number_witness :
    dbInv wDB ∧
    (wDB.rows.map Parcel.Number).Nodup ∧
    ((ParcelStore.Add wDB wParcel noAddFaults).2.1 = none ∧
     ParcelStore.Add wDB { wParcel with Number := 42 } noAddFaults =
       ParcelStore.Add wDB wParcel noAddFaults ∧
     wDB.rows.all (fun r => !(r.Number == (ParcelStore.Add wDB wParcel noAddFaults).1)) = true ∧
     ((ParcelStore.Add wDB wParcel noAddFaults).2.2.rows.map Parcel.Number).Nodup ∧
     dbInv (ParcelStore.Add wDB wParcel noAddFaults).2.2) :=
  ⟨by unfold dbInv; decide, by decide,
   add_assigns_fresh_number wDB wParcel 42 (by unfold dbInv; decide) (by decide)⟩

/-- C8: whichever driver call fails — the INSERT or `LastInsertId` of `Add`,
the `Scan` of `Get`, the `Exec` of `SetStatus`, `SetAddress` or `Delete`,
the `Query`, a row `Scan` or the final `rows.Err` of `GetByClient` — the
operation hands exactly that error back to the caller, with the store state
untouched by the failed mutation: no retry, no wrapping, no recovery. -/
theorem errors_propagate (db : ParcelDB) (p q : Parcel) (n c : Int) (s a : String)
    (e : Err) (f2 : Option Err) (sc : Nat → Option Err)
    (hq : selectByNumber db n = some q)
    (hc : selectByClient db c ≠ []) :
    (ParcelStore.Add db p ⟨some e, f2⟩).2.1 = some e ∧
    (ParcelStore.Add db p ⟨none, some e⟩).2.1 = some e ∧
    ParcelStore.Get db n (some e) = (zeroParcel, some e) ∧
    ParcelStore.SetStatus db n s (some e) = (some e, db) ∧
    ParcelStore.SetAddress db n a (some e) = (some e, db) ∧
    ParcelStore.Delete db n (some e) = (some e, db) ∧
    ParcelStore.GetByClient db c ⟨some e, sc, none⟩ = ([], some e) ∧
    ParcelStore.GetByClient db c ⟨none, fun _ => some e, none⟩ = ([], some e) ∧
    ParcelStore.GetByClient db c ⟨none, fun _ => none, some e⟩ = ([], some e) := by
  obtain ⟨hd, tl, hlist⟩ := List.exists_cons_of_ne_nil hc
  refine ⟨rfl, rfl, ?_, rfl, rfl, rfl, rfl, ?_, ?_⟩
  · simp [ParcelStore.Get, hq]
  · simp [ParcelStore.GetByClient, hlist, ParcelStore.scanLoop]
  · simp [ParcelStore.GetByClient, scanLoop_ok]

/-- Witness for C8: parcel number 1 and client 1000 exist in the concrete
store, and the error string boom comes back verbatim from every operation. -/
theorem errors_propagate_witness :
    selectByNumber wDB 1 = some ⟨1, 1000, "registered", "addr1", "2024-01-01T00:00:00Z"⟩ ∧
    selectByClient wDB 1000 ≠ [] ∧
    ((ParcelStore.Add wDB wParcel ⟨some "boom", none⟩).2.1 = some "boom" ∧
     (ParcelStore.Add wDB wParcel ⟨none, some "boom"⟩).2.1 = some "boom" ∧
     ParcelStore.Get wDB 1 (some "boom") = (zeroParcel, some "boom") ∧
     ParcelStore.SetStatus wDB 1 "sent" (some "boom") = (some "boom", wDB) ∧
     ParcelStore.SetAddress wDB 1 "nowhere" (some "boom") = (some "boom", wDB) ∧
     ParcelStore.Delete wDB 1 (some "boom") = (some "boom", wDB) ∧
     ParcelStore.GetByClient wDB 1000 ⟨some "boom", fun _ => none, none⟩ = ([], some "boom") ∧
     ParcelStore.GetByClient wDB 1000 ⟨none, fun _ => some "boom", none⟩ = ([], some "boom") ∧
     ParcelStore.GetByClient wDB 1000 ⟨none, fun _ => none, some "boom"⟩ = ([], some "boom")) :=
  ⟨by decide, by decide,
   errors_propagate wDB wParcel ⟨1, 1000, "registered", "addr1", "2024-01-01T00:00:00Z"⟩
     1 1000 "sent" "nowhere" "boom" none (fun _ => none) (by decide) (by decide)⟩

/-- C9: frame conditions of the mutations, scoped to the single row matching
the given number. `SetStatus` leaves `Number`, `Client`, `Address` and
`CreatedAt` of every position untouched, and rewrites position by position:
only the row whose number matches gets the new status, every other position
is wholly unchanged. `SetAddress` leaves `Number`, `Client`, `Status` and
`CreatedAt` of every position untouched, and only the matching registered
row gets the new address, every other position being wholly unchanged.
Every row surviving `Delete` is one of the original rows, unmodified, and
every original row whose number differs from the given one survives. `Add`
— in every run, failed or not — leaves all previously stored rows in place
unchanged. -/
theorem store_frame (db : ParcelDB) (n : Int) (s a : String) (p : Parcel)
    (fa : AddFaults) (i : Nat) :
    ((ParcelStore.SetStatus db n s none).2.rows[i]?.map
        (fun r => (r.Number, r.Client, r.Address, r.CreatedAt)) =
      db.rows[i]?.map (fun r => (r.Number, r.Client, r.Address, r.CreatedAt))) ∧
    ((ParcelStore.SetStatus db n s none).2.rows[i]? =
      db.rows[i]?.map (fun r => if r.Number = n then { r with Status := s } else r)) ∧
    ((ParcelStore.SetAddress db n a none).2.rows[i]?.map
        (fun r => (r.Number, r.Client, r.Status, r.CreatedAt)) =
      db.rows[i]?.map (fun r => (r.Number, r.Client, r.Status, r.CreatedAt))) ∧
    ((ParcelStore.SetAddress db n a none).2.rows[i]? =
      db.rows[i]?.map (fun r =>
        if r.Number = n ∧ r.Status = ParcelStatusRegistered
        then { r with Address := a } else r)) ∧
    ((ParcelStore.Delete db n none).2.rows.all (fun r => db.rows.contains r) = true) ∧
    ((db.rows.filter (fun r => !(r.Number == n))).all
        (fun r => (ParcelStore.Delete db n none).2.rows.contains r) = true) ∧
    ((ParcelStore.Add db p fa).2.2.rows.take db.rows.length = db.rows) := by
  refine ⟨?_, ?_, ?_, ?_, ?_, ?_, ?_⟩
  · simp only [ParcelStore.SetStatus, updateStatusRows, List.getElem?_map]
    cases hr : db.rows[i]? with
    | none => rfl
    | some r =>
      by_cases h1 : r.Number = n <;> simp [h1]
  · simp only [ParcelStore.SetStatus, updateStatusRows, List.getElem?_map]
    cases hr : db.rows[i]? with
    | none => rfl
    | some r =>
      by_cases h1 : r.Number = n <;> simp [h1]
  · simp only [ParcelStore.SetAddress, updateAddressRows, List.getElem?_map]
    cases hr : db.rows[i]? with
    | none => rfl
    | some r =>
      by_cases h1 : r.Number = n <;> by_cases h2 : r.Status = ParcelStatusRegistered <;>
        simp [h1, h2]
  · simp only [ParcelStore.SetAddress, updateAddressRows, List.getElem?_map]
    cases hr : db.rows[i]? with
    | none => rfl
    | some r =>
      by_cases h1 : r.Number = n <;> by_cases h2 : r.Status = ParcelStatusRegistered <;>
        simp [h1, h2]
  · simp only [ParcelStore.Delete, deleteRows, List.all_eq_true]
    intro r hr
    have hmem : r ∈ db.rows := (List.mem_filter.mp hr).1
    exact List.elem_eq_true_of_mem hmem
  · simp only [List.all_eq_true]
    intro r hr
    rw [List.mem_filter] at hr
    have hne : (r.Number == n) = false := by simpa using hr.2
    refine List.elem_eq_true_of_mem ?_
    simp only [ParcelStore.Delete, deleteRows]
    exact List.mem_filter.mpr ⟨hr.1, by simp [hne]⟩
  · rcases fa with ⟨ex, li⟩
    cases ex <;> cases li <;>
      simp [ParcelStore.Add, insertParcel, List.take_left, List.take_length]

/-- C10: whenever an operation reports an error, the accompanying value is
the Go zero value of its type — `Add` returns 0, `Get` the zero parcel, and
`GetByClient` the nil slice, never a partial list of already-decoded rows. -/
theorem zero_value_on_error (db : ParcelDB) (p : Parcel) (n c : Int)
    (fa : AddFaults) (fg : Option Err) (fq : QueryFaults)
    (ha : (ParcelStore.Add db p fa).2.1 ≠ none)
    (hg : (ParcelStore.Get db n fg).2 ≠ none)
    (hq : (ParcelStore.GetByClient db c fq).2 ≠ none) :
    (ParcelStore.Add db p fa).1 = 0 ∧
    (ParcelStore.Get db n fg).1 = zeroParcel ∧
    (ParcelStore.GetByClient db c fq).1 = [] := by
  refine ⟨?_, ?_, ?_⟩
  · rcases fa with ⟨ex, li⟩
    cases ex with
    | some e => rfl
    | none =>
      cases li with
      | some e => rfl
      | none => exact absurd rfl ha
  · cases hsel : selectByNumber db n with
    | none => simp [ParcelStore.Get, hsel]
    | some r =>
      cases fg with
      | some e => simp [ParcelStore.Get, hsel]
      | none => exact absurd (by simp [ParcelStore.Get, hsel]) hg
  · rcases fq with ⟨qf, sc, re⟩
    cases qf with
    | some e => rfl
    | none =>
      rcases hsl : ParcelStore.scanLoop (selectByClient db c) sc 0 [] with ⟨ps, oe⟩
      cases oe with
      | some e => simp [ParcelStore.GetByClient, hsl]
      | none =>
        cases re with
        | some e => simp [ParcelStore.GetByClient, hsl]
        | none => exact absurd (by simp [ParcelStore.GetByClient, hsl]) hq

/-- Witness for C10: a failed INSERT, a scan failure on an existing row, and
a scan failure on the second of two matching rows all yield zero values. -/
theorem zero_value_on_error_witness :
    (ParcelStore.Add wDB wParcel wAddFault).2.1 ≠ none ∧
    (ParcelStore.Get wDB 1 (some "boom")).2 ≠ none ∧
    (ParcelStore.GetByClient wDB 1000 wQueryFault).2 ≠ none ∧
    ((ParcelStore.Add wDB wParcel wAddFault).1 = 0 ∧
     (ParcelStore.Get wDB 1 (some "boom")).1 = zeroParcel ∧
     (ParcelStore.GetByClient wDB 1000 wQueryFault).1 = []) :=
  ⟨by decide, by decide, by decide,
   zero_value_on_error wDB wParcel 1 1000 wAddFault (some "boom") wQueryFault
     (by decide) (by decide) (by decide)⟩

end ParcelTracker
